import Mathlib

/-!
# Verification of the Mobius pool quote engine (`mobius_pool_integration.py`)

Shallow embedding of the swap-quote engine: the WAD fixed-point conversion
layer, the piecewise solvency-curve integral, the solvency score, and the
`quote_swap` / `validate_swap` pipeline.

Modelling conventions:
* Python `Decimal` values are modelled as exact rationals (`ℚ`).  The source
  sets `getcontext().prec = 28`; at the magnitudes the pool operates on
  (WAD-scaled token amounts) the decimal operations used in the quote
  pipeline are exact, so exact rational arithmetic is the faithful
  abstraction there.  Where the context rounding itself is at issue — the
  precision contract of the scaling layer — `roundDec`, `to_wad_dec` and
  `from_wad_dec` model the 28-significant-digit `ROUND_HALF_EVEN` rounding
  the context applies to every arithmetic result.
* Python `raise ValueError(msg)` sites are modelled as `Except SwapError`,
  with one constructor per distinct raise site / message.
* Python `int(decimal)` truncates toward zero; `truncToZero` mirrors it.
* The `assets` dict is an association list keyed by token address; `dict.get`
  is `List.lookup`.
-/

namespace Mobius

/-- Error kinds, one per distinct `raise ValueError` message in the source. -/
inductive SwapError where
  /-- "Asset not found in pool" -/
  | assetNotFound : SwapError
  /-- "Assets must be in the same aggregate account" -/
  | aggregateMismatch : SwapError
  /-- "Insufficient cash in destination asset" -/
  | insufficientCash : SwapError
  /-- "Invalid price - price not set for variant asset" -/
  | priceNotSet : SwapError
  /-- "Price cannot be zero" -/
  | zeroPrice : SwapError
  /-- "Liability cannot be zero" -/
  | liabilityZero : SwapError
  /-- "R threshold cannot be zero" -/
  | rThresholdZero : SwapError
  /-- "R cannot be zero" -/
  | rZero : SwapError
  deriving DecidableEq, Repr

/-- Constant `WAD = Decimal('1000000000000000000')` (18 decimals). -/
def WAD : ℚ := 1000000000000000000

/-- Constant `UNIT = WAD`. -/
def UNIT : ℚ := WAD

/-- State of one asset in the pool (`AssetState`).  `price_wad = none`
marks a stable asset, `some p` a variant asset with oracle price `p`. -/
structure AssetState where
  token_address : String
  cash : ℚ
  liability : ℚ
  underlying_token_decimals : ℕ
  aggregate_account : String
  price_wad : Option ℚ
  deriving DecidableEq, Repr

/-- The `pool_type` field of `PoolConfig` ("stable" or "variant"). -/
inductive PoolType where
  | stable : PoolType
  | variant : PoolType
  deriving DecidableEq, Repr

/-- Pool configuration parameters, all WAD-scaled (`PoolConfig`). -/
structure PoolConfig where
  r_threshold : ℚ
  haircut_rate : ℚ
  retention_ratio : ℚ
  pool_type : PoolType
  deriving DecidableEq, Repr

/-- A `MobiusPool` instance: configuration plus the two dictionaries
(`assets`, `asset_addresses`) keyed by token address. -/
structure MobiusPool where
  pool_address : String
  config : PoolConfig
  assets : List (String × AssetState)
  asset_addresses : List (String × String)
  deriving DecidableEq, Repr

/-- Dictionary read `self.assets.get(token_address)`. -/
def getAsset (p : MobiusPool) (token : String) : Option AssetState :=
  p.assets.lookup token

/-- Python `int(x)` on a decimal: truncation toward zero. -/
def truncToZero (q : ℚ) : ℤ :=
  if q < 0 then -Int.floor (-q) else Int.floor q

/-- Conversion `_to_wad(x, d)`: from `d` decimals to WAD (18 decimals). -/
def to_wad (x : ℚ) (d : ℕ) : ℚ :=
  if d < 18 then x * 10 ^ (18 - d)
  else if d > 18 then x / 10 ^ (d - 18)
  else x

/-- Conversion `_from_wad(x, d)`: from WAD (18 decimals) to `d` decimals. -/
def from_wad (x : ℚ) (d : ℕ) : ℚ :=
  if d < 18 then x / 10 ^ (18 - d)
  else if d > 18 then x * 10 ^ (d - 18)
  else x

/-- Rounding of a rational to the nearest integer with ties to even — the
`ROUND_HALF_EVEN` mode that the source's `Decimal` context applies (it is the
`decimal` module's default and the source never changes it). -/
def roundHalfEven (q : ℚ) : ℤ :=
  let f := ⌊q⌋
  if q - f < 1 / 2 then f
  else if 1 / 2 < q - f then f + 1
  else if f % 2 = 0 then f else f + 1

/-- Correct rounding of a value to the `getcontext().prec = 28` significant
decimal digits that the source sets, with ties to even: the exponent
`Int.log 10 |v| - 27` places the rounding position just after the 28th
significant digit.  Values already representable in 28 significant digits
(every arithmetic result whose exact value fits, trailing zeros included)
are returned unchanged, exactly as the `Decimal` context behaves. -/
def roundDec (v : ℚ) : ℚ :=
  if v = 0 then 0
  else (roundHalfEven (v / 10 ^ (Int.log 10 |v| - 27)) : ℚ) *
    10 ^ (Int.log 10 |v| - 27)

/-- Function `_to_wad(x, d)` with the `Decimal` context made explicit: the
source executes `x_decimal * (10 ** (18 - d))` and `x_decimal / (10 ** (d -
18))` under `getcontext().prec = 28`, so each arithmetic result is correctly
rounded to 28 significant digits (identity when nothing is lost).  `to_wad`
above is the exact-arithmetic abstraction of this function, faithful
whenever the scaled values stay within 28 significant digits. -/
def to_wad_dec (x : ℚ) (d : ℕ) : ℚ :=
  if d < 18 then roundDec (x * 10 ^ (18 - d))
  else if d > 18 then roundDec (x / 10 ^ (d - 18))
  else x

/-- Function `_from_wad(x, d)` with the `Decimal` context made explicit,
mirroring `to_wad_dec`. -/
def from_wad_dec (x : ℚ) (d : ℕ) : ℚ :=
  if d < 18 then roundDec (x / 10 ^ (18 - d))
  else if d > 18 then roundDec (x * 10 ^ (d - 18))
  else x

/-- Function `_solvency_curve_integral(r_thres_wad, r_wad)`: the piecewise definite
integral `F` (whitepaper Formula 4.2) exactly as the source computes it,
including the `5000000000000000000` divisor of the first branch. -/
def solvency_curve_integral (r_thres_wad r_wad : ℚ) : Except SwapError ℚ :=
  if r_thres_wad = 0 then .error .rThresholdZero
  else if r_wad = 0 then .error .rZero
  else if r_wad ≤ r_thres_wad then
    .ok ((UNIT - r_thres_wad) / 5000000000000000000 + r_thres_wad - r_wad)
  else if r_wad < UNIT then
    .ok ((UNIT - r_wad) ^ 5 / (5000000000000000000 * (UNIT - r_thres_wad) ^ 4))
  else
    .ok 0

/-- Function `_solvency_score(r_thres_wad, cash_wad, liability_wad,
cash_change_wad, add_cash)` (whitepaper Def. 4.1). -/
def solvency_score (r_thres_wad cash_wad liability_wad cash_change_wad : ℚ)
    (add_cash : Bool) : Except SwapError ℚ :=
  if liability_wad = 0 then .error .liabilityZero
  else
    let cov_before := cash_wad / liability_wad
    let cov_after :=
      if add_cash then (cash_wad + cash_change_wad) / liability_wad
      else (cash_wad - cash_change_wad) / liability_wad
    if cov_before = cov_after then .ok 0
    else do
      let fb ← solvency_curve_integral r_thres_wad (cov_before * UNIT)
      let fa ← solvency_curve_integral r_thres_wad (cov_after * UNIT)
      if cov_before > cov_after then
        .ok ((fa - fb) / (cov_before - cov_after))
      else
        .ok ((fb - fa) / (cov_after - cov_before))

/-- Function `_compute_to_amount(si_wad, sj_wad, from_amount_wad)`:
`fromAmount * (UNIT + si - sj) / UNIT`. -/
def compute_to_amount (si_wad sj_wad from_amount_wad : ℚ) : ℚ :=
  from_amount_wad * (UNIT + si_wad - sj_wad) / UNIT

/-- Function `_haircut(amount_wad, rate_wad)`: `amount * rate / UNIT`. -/
def haircut (amount_wad rate_wad : ℚ) : ℚ :=
  amount_wad * rate_wad / UNIT

/-- Function `_convert_token_amount(from_amount_wad, from_price_wad,
to_price_wad)`: relative-price conversion. -/
def convert_token_amount (from_amount_wad from_price_wad to_price_wad : ℚ) :
    Except SwapError ℚ :=
  if to_price_wad = 0 ∨ from_price_wad = 0 then .error .zeroPrice
  else .ok (from_amount_wad * from_price_wad / to_price_wad)

/-- Function `_quote_ideal_to_amount(from_asset, to_asset, from_amount_wad)`:
price-ratio conversion for variant pools. -/
def quote_ideal_to_amount (from_asset to_asset : AssetState)
    (from_amount_wad : ℚ) : Except SwapError ℚ :=
  match to_asset.price_wad, from_asset.price_wad with
  | none, _ => .error .priceNotSet
  | _, none => .error .priceNotSet
  | some to_price, some from_price =>
      convert_token_amount from_amount_wad from_price to_price

/-- The ideal destination amount: `from_amount_wad` for a stable pool,
price-ratio converted for a variant pool.  This branch appears verbatim in
both `_quote_swap_internal` and `validate_swap` in the source. -/
def ideal_to_amount (config : PoolConfig) (from_asset to_asset : AssetState)
    (from_amount_wad : ℚ) : Except SwapError ℚ :=
  match config.pool_type with
  | .stable => .ok from_amount_wad
  | .variant => quote_ideal_to_amount from_asset to_asset from_amount_wad

/-- Function `_quote_swap_internal(from_asset, to_asset, from_amount_wad)`:
returns `(actual_to_amount, haircut)` in WAD. -/
def quote_swap_internal (config : PoolConfig) (from_asset to_asset : AssetState)
    (from_amount_wad : ℚ) : Except SwapError (ℚ × ℚ) := do
  let ideal ← ideal_to_amount config from_asset to_asset from_amount_wad
  if to_asset.cash < ideal then .error .insufficientCash
  else do
    let solvency_from ← solvency_score config.r_threshold from_asset.cash
      from_asset.liability from_amount_wad true
    let solvency_to ← solvency_score config.r_threshold to_asset.cash
      to_asset.liability ideal false
    let to_amount := compute_to_amount (solvency_from * UNIT)
      (solvency_to * UNIT) ideal
    let h := haircut to_amount config.haircut_rate
    .ok (to_amount - h, h)

/-- Method `quote_swap(from_token, to_token, from_amount)`: returns
`(to_amount, haircut)` as integers in the destination token's decimals. -/
def quote_swap (p : MobiusPool) (from_token to_token : String)
    (from_amount : ℤ) : Except SwapError (ℤ × ℤ) :=
  match getAsset p from_token, getAsset p to_token with
  | none, _ => .error .assetNotFound
  | _, none => .error .assetNotFound
  | some from_asset, some to_asset =>
    if from_asset.aggregate_account ≠ to_asset.aggregate_account then
      .error .aggregateMismatch
    else do
      let from_amount_wad := to_wad (from_amount : ℚ)
        from_asset.underlying_token_decimals
      let r ← quote_swap_internal p.config from_asset to_asset from_amount_wad
      .ok (truncToZero (from_wad r.1 to_asset.underlying_token_decimals),
           truncToZero (from_wad r.2 to_asset.underlying_token_decimals))

/-- Method `validate_swap(from_token, to_token, from_amount)`: the body runs inside
`try: ... except Exception: return False`, so every raised error is coerced
to `false`. -/
def validate_swap (p : MobiusPool) (from_token to_token : String)
    (from_amount : ℤ) : Bool :=
  match getAsset p from_token, getAsset p to_token with
  | none, _ => false
  | _, none => false
  | some from_asset, some to_asset =>
    if from_asset.aggregate_account ≠ to_asset.aggregate_account then false
    else if from_amount ≤ 0 then false
    else
      let from_amount_wad := to_wad (from_amount : ℚ)
        from_asset.underlying_token_decimals
      match ideal_to_amount p.config from_asset to_asset from_amount_wad with
      | .error _ => false
      | .ok ideal => decide (¬ to_asset.cash < ideal)

/-- Python dict assignment `d[k] = v`: replace the binding of `k` if present,
otherwise append it. -/
def dictInsert {α : Type} (l : List (String × α)) (k : String) (v : α) :
    List (String × α) :=
  match l with
  | [] => [(k, v)]
  | (k1, v1) :: rest =>
      if k1 = k then (k, v) :: rest else (k1, v1) :: dictInsert rest k v

/-- Method `update_asset_state(...)`: full overwrite of one asset entry
(state-sync write operation). -/
def update_asset_state (p : MobiusPool) (token_address asset_address : String)
    (cash liability : ℤ) (underlying_token_decimals : ℕ)
    (aggregate_account : String) (values_in_wad : Bool)
    (price_wad : Option ℤ) : MobiusPool :=
  let cash_wad : ℚ :=
    if values_in_wad then (cash : ℚ)
    else to_wad (cash : ℚ) underlying_token_decimals
  let liability_wad : ℚ :=
    if values_in_wad then (liability : ℚ)
    else to_wad (liability : ℚ) underlying_token_decimals
  let price_decimal : Option ℚ := price_wad.map (fun q => (q : ℚ))
  let newAsset : AssetState :=
    AssetState.mk token_address cash_wad liability_wad
      underlying_token_decimals aggregate_account price_decimal
  { p with
    assets := dictInsert p.assets token_address newAsset,
    asset_addresses := dictInsert p.asset_addresses token_address asset_address }

/-- Method `update_asset_price(token_address, price_wad)`: price update of an
existing variant asset (state-sync write operation). -/
def update_asset_price (p : MobiusPool) (token_address : String)
    (price_wad : ℤ) : Except SwapError MobiusPool :=
  match getAsset p token_address with
  | none => .error .assetNotFound
  | some a =>
      let updated : AssetState := { a with price_wad := some (price_wad : ℚ) }
      .ok { p with assets := dictInsert p.assets token_address updated }

/-- Stateful presentation of `quote_swap`: the method reads the pool object
(`self`) and performs no assignment to it, so its embedding reads the state
and returns it untouched. -/
def quote_swapS (from_token to_token : String) (from_amount : ℤ) :
    StateM MobiusPool (Except SwapError (ℤ × ℤ)) := do
  let p ← get
  pure (quote_swap p from_token to_token from_amount)

/-- Stateful presentation of `validate_swap`; like `quote_swapS`, the method
only reads `self`. -/
def validate_swapS (from_token to_token : String) (from_amount : ℤ) :
    StateM MobiusPool Bool := do
  let p ← get
  pure (validate_swap p from_token to_token from_amount)

/-! Concrete pool snapshots used to evaluate the definitions. -/

/-- Source asset of a stable pool whose destination is deeply
under-collateralized: cash 10, liability 10 (WAD). -/
def assetF5 : AssetState :=
  ⟨"F", 10000000000000000000, 10000000000000000000, 18, "A", none⟩

/-- Destination asset with coverage ratio 0.4, below the 0.5 threshold. -/
def assetT5 : AssetState :=
  ⟨"T", 4000000000000000000, 10000000000000000000, 18, "A", none⟩

/-- Stable pool with threshold 0.5 (WAD) and zero haircut over `assetF5` and
`assetT5`. -/
def poolC5 : MobiusPool :=
  ⟨"P", ⟨500000000000000000, 0, 0, PoolType.stable⟩,
    [("F", assetF5), ("T", assetT5)], []⟩

/-- Variant-pool source asset whose oracle price was never set. -/
def assetF6 : AssetState :=
  ⟨"F", 10000000000000000000, 10000000000000000000, 18, "A", none⟩

/-- Variant-pool destination asset with price 2.0 (WAD). -/
def assetT6 : AssetState :=
  ⟨"T", 10000000000000000000, 10000000000000000000, 18, "A",
    some 2000000000000000000⟩

/-- Variant pool in which the source asset lacks a price. -/
def poolC6 : MobiusPool :=
  ⟨"P", ⟨200000000000000000, 0, 0, PoolType.variant⟩,
    [("F", assetF6), ("T", assetT6)], []⟩

/-- Variant-pool source asset with price 1.0 (WAD). -/
def assetF4 : AssetState :=
  ⟨"F", 10000000000000000000, 10000000000000000000, 18, "A",
    some 1000000000000000000⟩

/-- Variant-pool destination asset with price 2.0 (WAD). -/
def assetT4 : AssetState :=
  ⟨"T", 10000000000000000000, 10000000000000000000, 18, "A",
    some 2000000000000000000⟩

/-- Variant pool with both prices set and nonzero. -/
def poolC4 : MobiusPool :=
  ⟨"P", ⟨200000000000000000, 0, 0, PoolType.variant⟩,
    [("F", assetF4), ("T", assetT4)], []⟩

/-- Healthy stable-pool asset: cash 10, liability 10 (WAD). -/
def assetF9 : AssetState :=
  ⟨"F", 10000000000000000000, 10000000000000000000, 18, "A", none⟩

/-- Healthy stable-pool asset: cash 12, liability 10 (WAD). -/
def assetT9 : AssetState :=
  ⟨"T", 12000000000000000000, 10000000000000000000, 18, "A", none⟩

/-- Stable pool with the mainnet threshold 0.23 and haircut 0.00005 (WAD). -/
def poolC9 : MobiusPool :=
  ⟨"P", ⟨230000000000000000, 50000000000000, 0, PoolType.stable⟩,
    [("F", assetF9), ("T", assetT9)], []⟩

/-- Stable pool used to exercise the `validate_swap` false branches. -/
def poolC7 : MobiusPool :=
  ⟨"P", ⟨230000000000000000, 50000000000000, 0, PoolType.stable⟩,
    [("F", assetF9), ("T", assetT9)], []⟩

/-! Helper lemmas shared by the claim theorems. -/

/-- Scaling zero to WAD yields zero. -/
lemma to_wad_zero (d : ℕ) : to_wad 0 d = 0 := by
  unfold to_wad
  split <;> simp

/-- Scaling zero from WAD yields zero. -/
lemma from_wad_zero (d : ℕ) : from_wad 0 d = 0 := by
  unfold from_wad
  split <;> simp

/-- Truncation of zero is zero. -/
lemma truncToZero_zero : truncToZero 0 = 0 := by
  unfold truncToZero
  norm_num

/-- A cash change of zero leaves the coverage ratio unchanged, so the
solvency score short-circuits to zero. -/
lemma solvency_score_zero_change (rt c l : ℚ) (b : Bool) (hl : l ≠ 0) :
    solvency_score rt c l 0 b = .ok 0 := by
  unfold solvency_score
  rw [if_neg hl]
  cases b <;> simp

/-- Reduction of `quote_swap` to `_quote_swap_internal` once both lookups
succeed and the aggregate accounts match. -/
lemma quote_swap_eq (p : MobiusPool) (ft tt : String) (amt : ℤ)
    (fa ta : AssetState)
    (hf : getAsset p ft = some fa) (ht : getAsset p tt = some ta)
    (hagg : fa.aggregate_account = ta.aggregate_account) :
    quote_swap p ft tt amt =
      (quote_swap_internal p.config fa ta
          (to_wad (amt : ℚ) fa.underlying_token_decimals)).map
        (fun r => (truncToZero (from_wad r.1 ta.underlying_token_decimals),
                   truncToZero (from_wad r.2 ta.underlying_token_decimals))) := by
  unfold quote_swap
  rw [hf, ht]
  dsimp only
  rw [if_neg (by simp [hagg])]
  cases quote_swap_internal p.config fa ta
      (to_wad (amt : ℚ) fa.underlying_token_decimals) <;> rfl

/-- With a variant pool configuration, the internal quote fails exactly as
`_quote_ideal_to_amount` fails. -/
lemma quote_swap_internal_variant_error (config : PoolConfig)
    (fa ta : AssetState) (w : ℚ) (e : SwapError)
    (hv : config.pool_type = PoolType.variant)
    (he : quote_ideal_to_amount fa ta w = .error e) :
    quote_swap_internal config fa ta w = .error e := by
  unfold quote_swap_internal ideal_to_amount
  rw [hv, he]
  rfl

/-- Conversion from WAD is the identity for an 18-decimal token. -/
lemma from_wad_18 (x : ℚ) : from_wad x 18 = x := by
  unfold from_wad
  norm_num

/-- Truncation toward zero of an integer-valued rational is that integer. -/
lemma truncToZero_intCast (n : ℤ) : truncToZero (n : ℚ) = n := by
  unfold truncToZero
  by_cases h : (n : ℚ) < 0
  · rw [if_pos h, ← Int.cast_neg, Int.floor_intCast, neg_neg]
  · rw [if_neg h, Int.floor_intCast]

/-- Base-ten logarithm of a rational bracketed by explicit powers. -/
lemma int_log10_eq {r : ℚ} {e : ℤ} (h1 : (10 : ℚ) ^ e ≤ r)
    (h2 : r < (10 : ℚ) ^ (e + 1)) : Int.log 10 r = e := by
  have hr : 0 < r := lt_of_lt_of_le (by positivity) h1
  have hb : 1 < (10 : ℕ) := by norm_num
  have hc : (((10 : ℕ) : ℚ)) = (10 : ℚ) := by norm_num
  have hle : e ≤ Int.log 10 r := by
    refine (Int.zpow_le_iff_le_log hb hr).mp ?_
    rw [hc]
    exact h1
  have hlt : Int.log 10 r < e + 1 := by
    refine (Int.lt_zpow_iff_log_lt hb hr).mp ?_
    rw [hc]
    exact h2
  omega

/-- Half-even rounding of an integer is that integer. -/
lemma roundHalfEven_intCast (n : ℤ) : roundHalfEven (n : ℚ) = n := by
  unfold roundHalfEven
  rw [Int.floor_intCast]
  norm_num

/-- Half-even rounding of an exact tie above an odd integer rounds up, away
from zero on the positives. -/
lemma roundHalfEven_tie_up {q : ℚ} {f : ℤ} (hf : ⌊q⌋ = f)
    (hr : q - f = 1 / 2) (ho : f % 2 = 1) : roundHalfEven q = f + 1 := by
  unfold roundHalfEven
  rw [hf]
  dsimp only
  rw [hr, if_neg (by norm_num), if_neg (by norm_num), if_neg (by omega)]

/-- Unfolding of `roundDec` once the decimal exponent of the value is
known. -/
lemma roundDec_eq (v : ℚ) (e : ℤ) (hv : 0 < v)
    (hlog : Int.log 10 v = e + 27) :
    roundDec v = (roundHalfEven (v / 10 ^ e) : ℚ) * 10 ^ e := by
  unfold roundDec
  rw [if_neg (ne_of_gt hv), abs_of_pos hv, hlog]
  have he : e + 27 - 27 = e := by omega
  rw [he]

/-- Rounding to 28 significant digits is the identity on a value of the form
`m * 10 ^ e` whose 28th-significant-digit position is exactly `e`. -/
lemma roundDec_exact (v : ℚ) (m e : ℤ) (hv : 0 < v)
    (hm : v = (m : ℚ) * 10 ^ e) (hlog : Int.log 10 v = e + 27) :
    roundDec v = v := by
  rw [roundDec_eq v e hv hlog]
  have h10 : ((10 : ℚ) ^ e) ≠ 0 := by positivity
  have hq : v / 10 ^ e = (m : ℚ) := by
    rw [hm]
    field_simp
  rw [hq, roundHalfEven_intCast, ← hm]

/-- Bind on a successful `Except` computation. -/
lemma except_bind_ok {ε α β : Type} (a : α) (f : α → Except ε β) :
    (Except.ok a >>= f : Except ε β) = f a := rfl

/-- Bind on a failed `Except` computation. -/
lemma except_bind_error {ε α β : Type} (e : ε) (f : α → Except ε β) :
    ((Except.error e : Except ε α) >>= f) = Except.error e := rfl

/-- Map on a successful `Except` computation. -/
lemma except_map_ok {ε α β : Type} (a : α) (f : α → β) :
    (Except.ok a : Except ε α).map f = Except.ok (f a) := rfl

/-- Map on a failed `Except` computation. -/
lemma except_map_error {ε α β : Type} (e : ε) (f : α → β) :
    (Except.error e : Except ε α).map f = Except.error e := rfl

/-- Evaluation of the internal quote on the `poolC5` snapshot: the
destination's coverage transition 0.4 → 0.3 lies entirely in the
mixed-scale first branch of the solvency curve, so the solvency penalty is
about 10^18 and the net amount is hugely negative. -/
lemma poolC5_internal_eval :
    quote_swap_internal poolC5.config assetF5 assetT5
        (to_wad ((1000000000000000000 : ℤ) : ℚ)
          assetF5.underlying_token_decimals) =
      .ok (-999999999999999999000000000000000000, 0) := by
  norm_num [quote_swap_internal, ideal_to_amount, poolC5, assetF5, assetT5,
    solvency_score, solvency_curve_integral, compute_to_amount, haircut,
    to_wad, UNIT, WAD, except_bind_ok, except_bind_error]

/-! Claim theorems. -/

/-- C1: with canonical inputs rThreshold = 0.23 and r = 0.1 (WAD values
230000000000000000 and 100000000000000000), the first branch of
`_solvency_curve_integral` returns 130000000000000000.154 — the
`(rThreshold - r)` summand is left in WAD while `(1 - rThreshold)/5` is
reduced to canonical scale — so the result is not
`(1 - rThreshold)/5 + (rThreshold - r)` in canonical scale (0.284), nor that
value in WAD scale (0.284e18). -/
theorem solvency_curve_integral_branch1_mixed_scale :
    solvency_curve_integral 230000000000000000 100000000000000000 =
      .ok (65000000000000000077 / 500) ∧
    (65000000000000000077 / 500 : ℚ) ≠ (1 - 23 / 100) / 5 + (23 / 100 - 1 / 10) ∧
    (65000000000000000077 / 500 : ℚ) ≠
      ((1 - 23 / 100) / 5 + (23 / 100 - 1 / 10)) * WAD := by
  refine ⟨?_, by norm_num, by norm_num [WAD]⟩
  simp only [solvency_curve_integral, UNIT, WAD]
  norm_num

/-- C2: for every rThreshold strictly between 0 and 1 (canonical, so strictly
between 0 and UNIT in WAD), the first branch of `_solvency_curve_integral`
evaluated at r = rThreshold equals the second branch's expression
`(UNIT - r)^5 / (5e18 * (UNIT - rThreshold)^4)` evaluated at r = rThreshold:
the two branches are continuous at the threshold. -/
theorem solvency_curve_branch_continuity (rt : ℚ) (h0 : 0 < rt)
    (h1 : rt < UNIT) :
    solvency_curve_integral rt rt =
      .ok ((UNIT - rt) ^ 5 / (5000000000000000000 * (UNIT - rt) ^ 4)) := by
  have hne : rt ≠ 0 := ne_of_gt h0
  have hu : UNIT - rt ≠ 0 := sub_ne_zero.mpr (ne_of_gt h1)
  unfold solvency_curve_integral
  rw [if_neg hne, if_neg hne, if_pos le_rfl]
  congr 1
  field_simp
  ring

/-- Witness for C2 at rThreshold = 0.23 (WAD). -/
theorem solvency_curve_branch_continuity_witness :
    (0 : ℚ) < 230000000000000000 ∧ (230000000000000000 : ℚ) < UNIT ∧
    solvency_curve_integral 230000000000000000 230000000000000000 =
      .ok ((UNIT - 230000000000000000) ^ 5 /
        (5000000000000000000 * (UNIT - 230000000000000000) ^ 4)) :=
  ⟨by norm_num, by norm_num [UNIT, WAD],
    solvency_curve_branch_continuity 230000000000000000 (by norm_num)
      (by norm_num [UNIT, WAD])⟩

/-- C3 counterexample: scaling x = 10^28 + 15 down from 19 decimals loses
precision (the exact quotient 10^27 + 1.5 is not the returned value), and the
result is the half-even rounding 10^27 + 2 — away from zero — not the
truncation toward zero 10^27 + 1; the round trip then returns 10^28 + 20
instead of x. -/
theorem wad_scaling_half_even_counterexample :
    to_wad_dec ((10 : ℚ) ^ 28 + 15) 19 = 10 ^ 27 + 2 ∧
    ((10 : ℚ) ^ 28 + 15) / 10 ^ (19 - 18) ≠ (10 : ℚ) ^ 27 + 2 ∧
    (⌊((10 : ℚ) ^ 28 + 15) / 10 ^ (19 - 18)⌋ : ℤ) = 10 ^ 27 + 1 ∧
    from_wad_dec (to_wad_dec ((10 : ℚ) ^ 28 + 15) 19) 19 = 10 ^ 28 + 20 ∧
    ((10 : ℚ) ^ 28 + 20) ≠ (10 : ℚ) ^ 28 + 15 := by
  have hq1 : ((10 : ℚ) ^ 28 + 15) / 10 ^ (19 - 18) = (10 : ℚ) ^ 27 + 3 / 2 := by
    norm_num
  have hfloor : ⌊((10 : ℚ) ^ 27 + 3 / 2)⌋ = 10 ^ 27 + 1 := by
    rw [Int.floor_eq_iff]
    constructor
    · push_cast
      norm_num
    · push_cast
      norm_num
  have hlog1 : Int.log 10 ((10 : ℚ) ^ 27 + 3 / 2) = 0 + 27 := by
    have := int_log10_eq (r := (10 : ℚ) ^ 27 + 3 / 2) (e := 27)
      (by norm_num) (by norm_num)
    omega
  have h1 : to_wad_dec ((10 : ℚ) ^ 28 + 15) 19 = 10 ^ 27 + 2 := by
    unfold to_wad_dec
    rw [if_neg (by norm_num), if_pos (by norm_num), hq1]
    rw [roundDec_eq ((10 : ℚ) ^ 27 + 3 / 2) 0 (by positivity) hlog1]
    rw [zpow_zero, div_one]
    rw [roundHalfEven_tie_up hfloor (by push_cast; ring) (by norm_num)]
    push_cast
    ring
  refine ⟨h1, by rw [hq1]; norm_num, by rw [hq1]; exact hfloor, ?_, by norm_num⟩
  rw [h1]
  unfold from_wad_dec
  rw [if_neg (by norm_num), if_pos (by norm_num)]
  have hq2 : ((10 : ℚ) ^ 27 + 2) * 10 ^ (19 - 18) = (10 : ℚ) ^ 28 + 20 := by
    norm_num
  rw [hq2]
  refine roundDec_exact ((10 : ℚ) ^ 28 + 20) (10 ^ 27 + 2) 1 (by positivity)
    (by push_cast; norm_num) ?_
  have := int_log10_eq (r := (10 : ℚ) ^ 28 + 20) (e := 28)
    (by norm_num) (by norm_num)
  omega

/-- C3 amended: the WAD round trip is the identity whenever the scaling
steps lose no precision, i.e. whenever the 28-significant-digit context
rounding is the identity on the amount and on its scaled value; when a
scaling does lose precision the result is rounded half-even to 28
significant digits (never an error, but not truncated toward zero, as the
counterexample's tie shows). -/
theorem wad_round_trip_exact_scaling (x : ℚ) (d : ℕ)
    (hx : roundDec x = x)
    (hup : d < 18 → roundDec (x * 10 ^ (18 - d)) = x * 10 ^ (18 - d))
    (hdown : 18 < d → roundDec (x / 10 ^ (d - 18)) = x / 10 ^ (d - 18)) :
    from_wad_dec (to_wad_dec x d) d = x := by
  by_cases h1 : d < 18
  · have ht : to_wad_dec x d = x * 10 ^ (18 - d) := by
      unfold to_wad_dec
      rw [if_pos h1, hup h1]
    have hp : ((10 : ℚ) ^ (18 - d)) ≠ 0 := by positivity
    have heq : x * 10 ^ (18 - d) / 10 ^ (18 - d) = x :=
      mul_div_cancel_right₀ x hp
    unfold from_wad_dec
    rw [ht, if_pos h1, heq, hx]
  · by_cases h2 : d > 18
    · have ht : to_wad_dec x d = x / 10 ^ (d - 18) := by
        unfold to_wad_dec
        rw [if_neg h1, if_pos h2, hdown h2]
      have hp : ((10 : ℚ) ^ (d - 18)) ≠ 0 := by positivity
      have heq : x / 10 ^ (d - 18) * 10 ^ (d - 18) = x :=
        div_mul_cancel₀ x hp
      unfold from_wad_dec
      rw [ht, if_neg h1, if_pos h2, heq, hx]
    · have ht : to_wad_dec x d = x := by
        unfold to_wad_dec
        rw [if_neg h1, if_neg h2]
      unfold from_wad_dec
      rw [ht, if_neg h1, if_neg h2]

/-- Witness for C3's amended theorem: x = 10^27 with 19 native decimals
scales down to 10^26 exactly and returns unchanged. -/
theorem wad_round_trip_exact_scaling_witness :
    roundDec ((10 : ℚ) ^ 27) = (10 : ℚ) ^ 27 ∧
    ((18 : ℕ) < 19 →
      roundDec ((10 : ℚ) ^ 27 / 10 ^ (19 - 18)) =
        (10 : ℚ) ^ 27 / 10 ^ (19 - 18)) ∧
    from_wad_dec (to_wad_dec ((10 : ℚ) ^ 27) 19) 19 = (10 : ℚ) ^ 27 := by
  have hx : roundDec ((10 : ℚ) ^ 27) = (10 : ℚ) ^ 27 := by
    refine roundDec_exact ((10 : ℚ) ^ 27) (10 ^ 27) 0 (by positivity)
      (by push_cast; norm_num) ?_
    have := int_log10_eq (r := (10 : ℚ) ^ 27) (e := 27)
      (by norm_num) (by norm_num)
    omega
  have hdown : roundDec ((10 : ℚ) ^ 27 / 10 ^ (19 - 18)) =
      (10 : ℚ) ^ 27 / 10 ^ (19 - 18) := by
    have hq : ((10 : ℚ) ^ 27) / 10 ^ (19 - 18) = (10 : ℚ) ^ 26 := by
      norm_num
    rw [hq]
    refine roundDec_exact ((10 : ℚ) ^ 26) (10 ^ 27) (-1) (by positivity)
      ?_ ?_
    · push_cast
      rw [zpow_neg, zpow_one]
      ring
    · have := int_log10_eq (r := (10 : ℚ) ^ 26) (e := 26)
        (by norm_num) (by norm_num)
      omega
  exact ⟨hx, fun _ => hdown,
    wad_round_trip_exact_scaling ((10 : ℚ) ^ 27) 19 hx
      (fun hlt => absurd hlt (by norm_num)) (fun _ => hdown)⟩

/-- C10: for every rThreshold strictly between 0 and UNIT (canonical (0,1))
and every r > 0, `_solvency_curve_integral` succeeds with a nonnegative
value, strictly positive when r < UNIT and exactly zero when r ≥ UNIT. -/
theorem solvency_curve_integral_sign (rt r : ℚ) (hrt0 : 0 < rt)
    (hrt1 : rt < UNIT) (hr : 0 < r) :
    ∃ v, solvency_curve_integral rt r = .ok v ∧ 0 ≤ v ∧
      (r < UNIT → 0 < v) ∧ (UNIT ≤ r → v = 0) := by
  have hrtu : (0 : ℚ) < UNIT - rt := sub_pos.mpr hrt1
  have h4 : (0 : ℚ) < (UNIT - rt) ^ 4 := pow_pos hrtu 4
  unfold solvency_curve_integral
  rw [if_neg (ne_of_gt hrt0), if_neg (ne_of_gt hr)]
  by_cases hbr : r ≤ rt
  · rw [if_pos hbr]
    have hterm : (0 : ℚ) < (UNIT - rt) / 5000000000000000000 :=
      div_pos hrtu (by norm_num)
    refine ⟨_, rfl, by linarith, fun _ => by linarith, fun hge => ?_⟩
    exfalso
    have : r < UNIT := lt_of_le_of_lt hbr hrt1
    linarith
  · rw [if_neg hbr]
    by_cases hlt : r < UNIT
    · rw [if_pos hlt]
      have hnum : (0 : ℚ) < (UNIT - r) ^ 5 := pow_pos (sub_pos.mpr hlt) 5
      have hden : (0 : ℚ) < 5000000000000000000 * (UNIT - rt) ^ 4 :=
        mul_pos (by norm_num) h4
      have hpos := div_pos hnum hden
      exact ⟨_, rfl, le_of_lt hpos, fun _ => hpos, fun hge => by linarith⟩
    · rw [if_neg hlt]
      exact ⟨0, rfl, le_refl 0, fun hc => absurd hc hlt, fun _ => rfl⟩

/-- C4: on a variant pool with both assets present and in the same aggregate
account, `quote_swap` fails with `priceNotSet` when either price is unset and
with `zeroPrice` when both are set but either is zero; otherwise the ideal
destination amount is `fromAmountCanonical * fromAsset.price /
toAsset.price`. -/
theorem quote_swap_variant_price_rules (p : MobiusPool) (ft tt : String)
    (amt : ℤ) (fa ta : AssetState)
    (hf : getAsset p ft = some fa) (ht : getAsset p tt = some ta)
    (hv : p.config.pool_type = PoolType.variant)
    (hagg : fa.aggregate_account = ta.aggregate_account) :
    ((fa.price_wad = none ∨ ta.price_wad = none) →
        quote_swap p ft tt amt = .error .priceNotSet) ∧
    (∀ fp tp : ℚ, fa.price_wad = some fp → ta.price_wad = some tp →
        (fp = 0 ∨ tp = 0) → quote_swap p ft tt amt = .error .zeroPrice) ∧
    (∀ fp tp : ℚ, fa.price_wad = some fp → ta.price_wad = some tp →
        fp ≠ 0 → tp ≠ 0 →
        quote_ideal_to_amount fa ta
            (to_wad (amt : ℚ) fa.underlying_token_decimals) =
          .ok (to_wad (amt : ℚ) fa.underlying_token_decimals * fp / tp)) := by
  have hq := quote_swap_eq p ft tt amt fa ta hf ht hagg
  refine ⟨?_, ?_, ?_⟩
  · intro hnone
    have he : quote_ideal_to_amount fa ta
        (to_wad (amt : ℚ) fa.underlying_token_decimals) =
        .error .priceNotSet := by
      rcases hnone with h | h <;>
        cases htp : ta.price_wad <;> cases hfp : fa.price_wad <;>
        simp_all [quote_ideal_to_amount]
    rw [hq, quote_swap_internal_variant_error p.config fa ta _ _ hv he]
    rfl
  · intro fp tp hfp htp hzero
    have he : quote_ideal_to_amount fa ta
        (to_wad (amt : ℚ) fa.underlying_token_decimals) =
        .error .zeroPrice := by
      unfold quote_ideal_to_amount convert_token_amount
      rw [htp, hfp]
      dsimp only
      rw [if_pos (by tauto)]
    rw [hq, quote_swap_internal_variant_error p.config fa ta _ _ hv he]
    rfl
  · intro fp tp hfp htp hfp0 htp0
    unfold quote_ideal_to_amount convert_token_amount
    rw [htp, hfp]
    dsimp only
    rw [if_neg (by tauto)]

/-- Witness for C4: on `poolC4` (prices 1.0 and 2.0) the three price rules
instantiate; in particular the ideal amount for 7 source tokens is
`to_wad 7 18 * 1e18 / 2e18`. -/
theorem quote_swap_variant_price_rules_witness :
    getAsset poolC4 "F" = some assetF4 ∧ getAsset poolC4 "T" = some assetT4 ∧
    poolC4.config.pool_type = PoolType.variant ∧
    assetF4.aggregate_account = assetT4.aggregate_account ∧
    quote_ideal_to_amount assetF4 assetT4
        (to_wad ((7 : ℤ) : ℚ) assetF4.underlying_token_decimals) =
      .ok (to_wad ((7 : ℤ) : ℚ) assetF4.underlying_token_decimals *
        1000000000000000000 / 2000000000000000000) :=
  ⟨rfl, rfl, rfl, rfl,
    (quote_swap_variant_price_rules poolC4 "F" "T" 7 assetF4 assetT4 rfl rfl
        rfl rfl).2.2 1000000000000000000 2000000000000000000 rfl rfl
      (by norm_num) (by norm_num)⟩

/-- C5 counterexample: on `poolC5` the solvency multiplier drives the net
amount far below zero, yet `quote_swap` succeeds and returns the negative
amount instead of failing with `insufficientCash`. -/
theorem quote_swap_negative_result_counterexample :
    quote_swap poolC5 "F" "T" 1000000000000000000 =
      .ok (-999999999999999999000000000000000000, 0) ∧
    (-999999999999999999000000000000000000 : ℤ) < 0 := by
  refine ⟨?_, by norm_num⟩
  rw [quote_swap_eq poolC5 "F" "T" 1000000000000000000 assetF5 assetT5 rfl rfl
    rfl]
  rw [poolC5_internal_eval, except_map_ok]
  have h1 : truncToZero (from_wad (-999999999999999999000000000000000000)
      assetT5.underlying_token_decimals) =
      (-999999999999999999000000000000000000 : ℤ) := by
    have := truncToZero_intCast (-999999999999999999000000000000000000)
    rw [show assetT5.underlying_token_decimals = 18 from rfl, from_wad_18]
    simpa using this
  have h2 : truncToZero (from_wad 0 assetT5.underlying_token_decimals) =
      (0 : ℤ) := by
    rw [from_wad_zero, ← Int.cast_zero, truncToZero_intCast]
  rw [h1, h2]

/-- C5 amended: `quote_swap` performs no negativity check — whenever the
internal WAD computation succeeds with net amount `v` and haircut `h`
(whatever their signs), `quote_swap` returns them converted to the
destination token's decimals and truncated, never an error. -/
theorem quote_swap_returns_internal_result (p : MobiusPool) (ft tt : String)
    (amt : ℤ) (fa ta : AssetState) (v h : ℚ)
    (hf : getAsset p ft = some fa) (ht : getAsset p tt = some ta)
    (hagg : fa.aggregate_account = ta.aggregate_account)
    (hint : quote_swap_internal p.config fa ta
        (to_wad (amt : ℚ) fa.underlying_token_decimals) = .ok (v, h)) :
    quote_swap p ft tt amt =
      .ok (truncToZero (from_wad v ta.underlying_token_decimals),
           truncToZero (from_wad h ta.underlying_token_decimals)) := by
  rw [quote_swap_eq p ft tt amt fa ta hf ht hagg, hint, except_map_ok]

/-- Witness for C5's amended theorem on the `poolC5` snapshot. -/
theorem quote_swap_returns_internal_result_witness :
    quote_swap poolC5 "F" "T" 1000000000000000000 =
      .ok (truncToZero (from_wad (-999999999999999999000000000000000000)
             assetT5.underlying_token_decimals),
           truncToZero (from_wad 0 assetT5.underlying_token_decimals)) :=
  quote_swap_returns_internal_result poolC5 "F" "T" 1000000000000000000
    assetF5 assetT5 (-999999999999999999000000000000000000) 0 rfl rfl rfl
    poolC5_internal_eval

/-- C6 counterexample: on `poolC6` the quote pipeline fails with the
price-configuration defect `priceNotSet`, which is not one of the expected
validation failures, yet `validate_swap` coerces it to `false` instead of
propagating it. -/
theorem validate_swap_masks_price_error_counterexample :
    validate_swap poolC6 "F" "T" 1 = false ∧
    quote_swap poolC6 "F" "T" 1 = .error .priceNotSet := by
  constructor
  · rfl
  · rw [quote_swap_eq poolC6 "F" "T" 1 assetF6 assetT6 rfl rfl rfl]
    rw [quote_swap_internal_variant_error poolC6.config assetF6 assetT6 _
      SwapError.priceNotSet rfl rfl]
    rfl

/-- C6 amended: `validate_swap` catches every raised error, so on a variant
pool whose source or destination asset lacks a price it returns `false`
rather than propagating the `priceNotSet` defect. -/
theorem validate_swap_false_on_unset_price (p : MobiusPool) (ft tt : String)
    (amt : ℤ) (fa ta : AssetState)
    (hf : getAsset p ft = some fa) (ht : getAsset p tt = some ta)
    (hv : p.config.pool_type = PoolType.variant)
    (hagg : fa.aggregate_account = ta.aggregate_account)
    (hpos : 0 < amt)
    (hnone : fa.price_wad = none ∨ ta.price_wad = none) :
    validate_swap p ft tt amt = false := by
  have he : quote_ideal_to_amount fa ta
      (to_wad (amt : ℚ) fa.underlying_token_decimals) =
      .error .priceNotSet := by
    rcases hnone with h | h <;>
      cases htp : ta.price_wad <;> cases hfp : fa.price_wad <;>
      simp_all [quote_ideal_to_amount]
  unfold validate_swap
  rw [hf, ht]
  dsimp only
  rw [if_neg (by simp [hagg]), if_neg (by omega)]
  unfold ideal_to_amount
  rw [hv, he]

/-- Witness for C6's amended theorem on the `poolC6` snapshot. -/
theorem validate_swap_false_on_unset_price_witness :
    validate_swap poolC6 "F" "T" 1 = false :=
  validate_swap_false_on_unset_price poolC6 "F" "T" 1 assetF6 assetT6 rfl rfl
    rfl rfl (by norm_num) (Or.inl rfl)

/-- C7: `validate_swap` returns `false` (and never fails, being a total
boolean function) for a non-positive requested amount, for an unregistered
token on either side, and whenever the ideal destination amount exceeds the
destination asset's cash. -/
theorem validate_swap_false_cases (p : MobiusPool) (ft tt : String)
    (amt : ℤ) :
    (amt ≤ 0 → validate_swap p ft tt amt = false) ∧
    (getAsset p ft = none ∨ getAsset p tt = none →
      validate_swap p ft tt amt = false) ∧
    (∀ (fa ta : AssetState) (i : ℚ),
      getAsset p ft = some fa → getAsset p tt = some ta →
      ideal_to_amount p.config fa ta
        (to_wad (amt : ℚ) fa.underlying_token_decimals) = .ok i →
      ta.cash < i → validate_swap p ft tt amt = false) := by
  refine ⟨?_, ?_, ?_⟩
  · intro hle
    unfold validate_swap
    rcases getAsset p ft with _ | fa <;> rcases getAsset p tt with _ | ta <;>
      try rfl
    dsimp only
    by_cases hagg : fa.aggregate_account ≠ ta.aggregate_account
    · rw [if_pos hagg]
    · rw [if_neg hagg, if_pos hle]
  · intro hor
    unfold validate_swap
    rcases hor with h | h
    · rw [h]
      rcases getAsset p tt with _ | ta <;> rfl
    · rw [h]
      rcases getAsset p ft with _ | fa <;> rfl
  · intro fa ta i hf ht hi hcash
    unfold validate_swap
    rw [hf, ht]
    dsimp only
    by_cases hagg : fa.aggregate_account ≠ ta.aggregate_account
    · rw [if_pos hagg]
    · rw [if_neg hagg]
      by_cases hle : amt ≤ 0
      · rw [if_pos hle]
      · rw [if_neg hle, hi]
        simp [hcash]

/-- Witness for C7: a zero requested amount is rejected on `poolC7`. -/
theorem validate_swap_false_cases_witness :
    (0 : ℤ) ≤ 0 ∧ validate_swap poolC7 "F" "T" 0 = false :=
  ⟨le_refl 0, (validate_swap_false_cases poolC7 "F" "T" 0).1 (le_refl 0)⟩

/-- C8: the two quote operations are pure readers of the pool snapshot — run
as state transformers they return the pool state unchanged on every input,
whether the quote succeeds or fails. -/
theorem quote_validate_state_frame (p : MobiusPool) (ft tt : String)
    (amt : ℤ) :
    ((quote_swapS ft tt amt).run p).2 = p ∧
    ((validate_swapS ft tt amt).run p).2 = p :=
  ⟨rfl, rfl⟩

/-- C9: on a stable pool with both assets registered in the same aggregate
account, nonzero liabilities and nonnegative cash, quoting a zero amount
does not fail and returns exactly (0, 0). -/
theorem quote_swap_zero_amount (p : MobiusPool) (ft tt : String)
    (fa ta : AssetState)
    (hf : getAsset p ft = some fa) (ht : getAsset p tt = some ta)
    (hstable : p.config.pool_type = PoolType.stable)
    (hagg : fa.aggregate_account = ta.aggregate_account)
    (hfl : fa.liability ≠ 0) (htl : ta.liability ≠ 0)
    (hfc : 0 ≤ fa.cash) (htc : 0 ≤ ta.cash) :
    quote_swap p ft tt 0 = .ok (0, 0) := by
  have hw : to_wad ((0 : ℤ) : ℚ) fa.underlying_token_decimals = 0 := by
    rw [Int.cast_zero, to_wad_zero]
  have hint : quote_swap_internal p.config fa ta
      (to_wad ((0 : ℤ) : ℚ) fa.underlying_token_decimals) = .ok (0, 0) := by
    rw [hw]
    unfold quote_swap_internal ideal_to_amount
    rw [hstable]
    dsimp only
    rw [except_bind_ok, if_neg (not_lt.mpr htc),
      solvency_score_zero_change _ _ _ true hfl, except_bind_ok,
      solvency_score_zero_change _ _ _ false htl, except_bind_ok]
    norm_num [compute_to_amount, haircut]
  rw [quote_swap_eq p ft tt 0 fa ta hf ht hagg, hint, except_map_ok,
    from_wad_zero, truncToZero_zero]

/-- Witness for C9 on the healthy stable pool `poolC9`. -/
theorem quote_swap_zero_amount_witness :
    quote_swap poolC9 "F" "T" 0 = .ok (0, 0) :=
  quote_swap_zero_amount poolC9 "F" "T" assetF9 assetT9 rfl rfl rfl rfl
    (by norm_num [assetF9]) (by norm_num [assetT9]) (by norm_num [assetF9])
    (by norm_num [assetT9])

/-- Witness for C10 at rThreshold = 0.23 and r = 0.1 (WAD). -/
theorem solvency_curve_integral_sign_witness :
    (0 : ℚ) < 230000000000000000 ∧ (230000000000000000 : ℚ) < UNIT ∧
    (0 : ℚ) < 100000000000000000 ∧
    ∃ v, solvency_curve_integral 230000000000000000 100000000000000000 =
        .ok v ∧ 0 ≤ v ∧
      ((100000000000000000 : ℚ) < UNIT → 0 < v) ∧
      (UNIT ≤ (100000000000000000 : ℚ) → v = 0) :=
  ⟨by norm_num, by norm_num [UNIT, WAD], by norm_num,
    solvency_curve_integral_sign 230000000000000000 100000000000000000
      (by norm_num) (by norm_num [UNIT, WAD]) (by norm_num)⟩

end Mobius
